import Mathlib

/-!
Verification of the cargo-http-registry server front end (src/main.rs):
the registry error JSON model and its serde encoding/decoding, the
response conversion, the fallback error encoder, the startup sequencing
of the server, the bind-retry loop, the publish route filter chain and
the exit behaviour of main.
-/

/-- The double-quote character. -/
def quoteChar : Char := Char.ofNat 34

/-- The backslash character. -/
def backslashChar : Char := Char.ofNat 92

/-- The opening curly brace character. -/
def lbrace : Char := Char.ofNat 123

/-- The closing curly brace character. -/
def rbrace : Char := Char.ofNat 125

/-- A JSON syntax tree, the target of the JSON parser modelling
serde_json deserialization. Number lexemes are kept verbatim. -/
inductive Json where
  | null : Json
  | bool (b : Bool) : Json
  | num (lexeme : String) : Json
  | str (s : String) : Json
  | arr (items : List Json) : Json
  | obj (fields : List (String × Json)) : Json

/-- JSON insignificant whitespace: space, tab, line feed, carriage return. -/
def isWsChar (c : Char) : Bool :=
  c = Char.ofNat 32 || c = Char.ofNat 9 || c = Char.ofNat 10 || c = Char.ofNat 13

/-- Drop leading JSON whitespace. -/
def skipWs : List Char → List Char
  | [] => []
  | c :: rest => if isWsChar c then skipWs rest else c :: rest

/-- The value of a hexadecimal digit character, if it is one. -/
def hexVal (c : Char) : Option Nat :=
  if 48 ≤ c.toNat ∧ c.toNat ≤ 57 then some (c.toNat - 48)
  else if 97 ≤ c.toNat ∧ c.toNat ≤ 102 then some (c.toNat - 87)
  else if 65 ≤ c.toNat ∧ c.toNat ≤ 70 then some (c.toNat - 55)
  else none

/-- The lowercase hexadecimal digit character for a value below 16. -/
def hexDigitChar (n : Nat) : Char :=
  if n < 10 then Char.ofNat (48 + n) else Char.ofNat (87 + n)

/-- Prepend a decoded character to the string part of a parse result. -/
def consFst (c : Char) : Option (List Char × List Char) → Option (List Char × List Char) :=
  Option.map (fun p => (c :: p.1, p.2))

mutual

/-- Parse the body of a JSON string literal, after its opening quote,
returning the decoded characters and the remaining input. -/
def parseStringBody : List Char → Option (List Char × List Char)
  | [] => none
  | c :: rest =>
    if c = quoteChar then some ([], rest)
    else if c = backslashChar then parseEscape rest
    else if c.toNat < 32 then none
    else consFst c (parseStringBody rest)

/-- Parse a JSON string escape sequence, after its backslash. -/
def parseEscape : List Char → Option (List Char × List Char)
  | [] => none
  | c :: rest =>
    if c = quoteChar then consFst quoteChar (parseStringBody rest)
    else if c = backslashChar then consFst backslashChar (parseStringBody rest)
    else if c = '/' then consFst '/' (parseStringBody rest)
    else if c = 'b' then consFst (Char.ofNat 8) (parseStringBody rest)
    else if c = 'f' then consFst (Char.ofNat 12) (parseStringBody rest)
    else if c = 'n' then consFst (Char.ofNat 10) (parseStringBody rest)
    else if c = 'r' then consFst (Char.ofNat 13) (parseStringBody rest)
    else if c = 't' then consFst (Char.ofNat 9) (parseStringBody rest)
    else if c = 'u' then parseUnicode rest
    else none

/-- Parse the four hex digits of a unicode escape, combining surrogate
pairs and rejecting lone surrogates. -/
def parseUnicode : List Char → Option (List Char × List Char)
  | h1 :: h2 :: h3 :: h4 :: rest =>
    match hexVal h1, hexVal h2, hexVal h3, hexVal h4 with
    | some a, some b, some c, some d =>
      let n := ((a * 16 + b) * 16 + c) * 16 + d
      if n < 55296 then consFst (Char.ofNat n) (parseStringBody rest)
      else if n < 56320 then
        match rest with
        | e1 :: e2 :: k1 :: k2 :: k3 :: k4 :: rest2 =>
          if e1 = backslashChar ∧ e2 = 'u' then
            match hexVal k1, hexVal k2, hexVal k3, hexVal k4 with
            | some w, some x, some y, some z =>
              let m := ((w * 16 + x) * 16 + y) * 16 + z
              if 56320 ≤ m ∧ m < 57344 then
                consFst (Char.ofNat (65536 + (n - 55296) * 1024 + (m - 56320)))
                  (parseStringBody rest2)
              else none
            | _, _, _, _ => none
          else none
        | _ => none
      else if n < 57344 then none
      else consFst (Char.ofNat n) (parseStringBody rest)
    | _, _, _, _ => none
  | _ => none

end

/-- Take a maximal run of leading decimal digits. -/
def takeDigits : List Char → List Char × List Char
  | [] => ([], [])
  | c :: rest =>
    if 48 ≤ c.toNat ∧ c.toNat ≤ 57 then
      let p := takeDigits rest
      (c :: p.1, p.2)
    else ([], c :: rest)

/-- Parse the integer part of a JSON number: a zero, or a nonzero digit
followed by further digits. -/
def parseIntPart : List Char → Option (List Char × List Char)
  | [] => none
  | c :: rest =>
    if c.toNat = 48 then some ([c], rest)
    else if 49 ≤ c.toNat ∧ c.toNat ≤ 57 then
      let p := takeDigits rest
      some (c :: p.1, p.2)
    else none

/-- Parse an optional fraction part of a JSON number. -/
def parseFracPart : List Char → Option (List Char × List Char)
  | [] => some ([], [])
  | c :: rest =>
    if c = '.' then
      match takeDigits rest with
      | ([], _) => none
      | (ds, rest2) => some (c :: ds, rest2)
    else some ([], c :: rest)

/-- Parse an optional exponent part of a JSON number. -/
def parseExpPart : List Char → Option (List Char × List Char)
  | [] => some ([], [])
  | c :: rest =>
    if c = 'e' ∨ c = 'E' then
      let sp :=
        match rest with
        | s :: r2 => if s = '+' ∨ s = '-' then (([s] : List Char), r2) else (([] : List Char), rest)
        | [] => (([] : List Char), rest)
      match takeDigits sp.2 with
      | ([], _) => none
      | (ds, rest2) => some (c :: sp.1 ++ ds, rest2)
    else some ([], c :: rest)

/-- Parse a JSON number, keeping its lexeme. -/
def parseNumber (cs : List Char) : Option (Json × List Char) :=
  let sp :=
    match cs with
    | c :: rest => if c = '-' then (([c] : List Char), rest) else (([] : List Char), cs)
    | [] => (([] : List Char), cs)
  match parseIntPart sp.2 with
  | none => none
  | some (ip, r1) =>
    match parseFracPart r1 with
    | none => none
    | some (fp, r2) =>
      match parseExpPart r2 with
      | none => none
      | some (ep, r3) => some (Json.num (String.mk (sp.1 ++ ip ++ fp ++ ep)), r3)

mutual

/-- Parse a JSON value, with fuel bounding the nesting recursion. -/
def parseValue : Nat → List Char → Option (Json × List Char)
  | 0, _ => none
  | Nat.succ f, cs =>
    match skipWs cs with
    | [] => none
    | c :: rest =>
      if c = quoteChar then
        Option.map (fun p => (Json.str (String.mk p.1), p.2)) (parseStringBody rest)
      else if c = lbrace then
        match skipWs rest with
        | c2 :: rest2 =>
          if c2 = rbrace then some (Json.obj [], rest2)
          else Option.map (fun p => (Json.obj p.1, p.2)) (parseMembers f rest)
        | [] => none
      else if c = '[' then
        match skipWs rest with
        | c2 :: rest2 =>
          if c2 = ']' then some (Json.arr [], rest2)
          else Option.map (fun p => (Json.arr p.1, p.2)) (parseItems f rest)
        | [] => none
      else if c = 't' then
        match rest with
        | 'r' :: 'u' :: 'e' :: r2 => some (Json.bool true, r2)
        | _ => none
      else if c = 'f' then
        match rest with
        | 'a' :: 'l' :: 's' :: 'e' :: r2 => some (Json.bool false, r2)
        | _ => none
      else if c = 'n' then
        match rest with
        | 'u' :: 'l' :: 'l' :: r2 => some (Json.null, r2)
        | _ => none
      else parseNumber (c :: rest)

/-- Parse the members of a JSON object, after its opening brace or a
separating comma, up to and including the closing brace. -/
def parseMembers : Nat → List Char → Option (List (String × Json) × List Char)
  | 0, _ => none
  | Nat.succ f, cs =>
    match skipWs cs with
    | c :: rest =>
      if c = quoteChar then
        match parseStringBody rest with
        | some (key, r1) =>
          match skipWs r1 with
          | c2 :: r2 =>
            if c2 = ':' then
              match parseValue f r2 with
              | some (v, r3) =>
                match skipWs r3 with
                | c3 :: r4 =>
                  if c3 = ',' then
                    Option.map (fun p => ((String.mk key, v) :: p.1, p.2)) (parseMembers f r4)
                  else if c3 = rbrace then some ([(String.mk key, v)], r4)
                  else none
                | [] => none
              | none => none
            else none
          | [] => none
        | none => none
      else none
    | [] => none

/-- Parse the items of a JSON array, after its opening bracket or a
separating comma, up to and including the closing bracket. -/
def parseItems : Nat → List Char → Option (List Json × List Char)
  | 0, _ => none
  | Nat.succ f, cs =>
    match parseValue f cs with
    | some (v, r1) =>
      match skipWs r1 with
      | c :: r2 =>
        if c = ',' then Option.map (fun p => (v :: p.1, p.2)) (parseItems f r2)
        else if c = ']' then some ([v], r2)
        else none
      | [] => none
    | none => none

end

/-- Parse a complete JSON document: one value with only whitespace
around it. -/
def parseJson (s : String) : Option Json :=
  match parseValue (s.data.length + 1) s.data with
  | some (j, rest) => if skipWs rest = [] then some j else none
  | none => none

/-- A single error that the registry returns, as in src/main.rs. -/
structure RegistryError where
  detail : String
deriving DecidableEq

/-- The list of errors that the registry returns in its response, as in
src/main.rs. -/
structure RegistryErrors where
  errors : List RegistryError
deriving DecidableEq

/-- Look up a required object field the way a serde derived
deserializer does: absent or duplicate keys are errors. -/
def jsonField (fields : List (String × Json)) (key : String) : Option Json :=
  match fields.filter (fun p => p.1 = key) with
  | [p] => some p.2
  | _ => none

/-- Deserialize a RegistryError from JSON, as the serde derive does. -/
def registryErrorOfJson : Json → Option RegistryError
  | Json.obj fields =>
    match jsonField fields "detail" with
    | some (Json.str s) => some ⟨s⟩
    | _ => none
  | _ => none

/-- Deserialize a sequence of RegistryError values, in order, failing
on the first element that does not deserialize. -/
def decodeErrorItems : List Json → Option (List RegistryError)
  | [] => some []
  | j :: rest =>
    match registryErrorOfJson j with
    | some e => Option.map (fun l => e :: l) (decodeErrorItems rest)
    | none => none

/-- Deserialize a RegistryErrors from JSON, as the serde derive does. -/
def registryErrorsOfJson : Json → Option RegistryErrors
  | Json.obj fields =>
    match jsonField fields "errors" with
    | some (Json.arr items) =>
      Option.map RegistryErrors.mk (decodeErrorItems items)
    | _ => none
  | _ => none

/-- Model of serde_json from_str for RegistryErrors. -/
def decodeRegistryErrors (s : String) : Option RegistryErrors :=
  (parseJson s).bind registryErrorsOfJson

/-- How serde_json escapes one character inside a JSON string. -/
def escapeChar (c : Char) : List Char :=
  if c = quoteChar then [backslashChar, quoteChar]
  else if c = backslashChar then [backslashChar, backslashChar]
  else if c.toNat < 32 then
    if c.toNat = 8 then [backslashChar, 'b']
    else if c.toNat = 9 then [backslashChar, 't']
    else if c.toNat = 10 then [backslashChar, 'n']
    else if c.toNat = 12 then [backslashChar, 'f']
    else if c.toNat = 13 then [backslashChar, 'r']
    else [backslashChar, 'u', '0', '0', hexDigitChar (c.toNat / 16), hexDigitChar (c.toNat % 16)]
  else [c]

/-- The characters of the serde_json encoding of a string. -/
def encodeStringChars (s : String) : List Char :=
  quoteChar :: (s.data.map escapeChar).flatten ++ [quoteChar]

/-- The serde_json encoding of a string. -/
def encodeJsonString (s : String) : String := String.mk (encodeStringChars s)

/-- The serde_json encoding of one RegistryError. -/
def encodeRegistryError (e : RegistryError) : String :=
  "\x7b\"detail\":" ++ encodeJsonString e.detail ++ "\x7d"

/-- The comma-separated serde_json encodings of a list of errors. -/
def encodeErrorsList : List RegistryError → String
  | [] => ""
  | [e] => encodeRegistryError e
  | e :: rest => encodeRegistryError e ++ "," ++ encodeErrorsList rest

/-- The serde_json encoding of a RegistryErrors value. -/
def encodeRegistryErrors (es : RegistryErrors) : String :=
  "\x7b\"errors\":[" ++ encodeErrorsList es.errors ++ "]\x7d"

/-- Model of serde_json to_string on RegistryErrors: serialization of
these purely string-valued structures always succeeds. -/
def to_string (es : RegistryErrors) : Except String String :=
  Except.ok (encodeRegistryErrors es)

/-- The JSON tree of one encoded RegistryError. -/
def errorItemJson (e : RegistryError) : Json :=
  Json.obj [("detail", Json.str e.detail)]

/-- The JSON tree of an encoded RegistryErrors value. -/
def jsonOfErrors (es : RegistryErrors) : Json :=
  Json.obj [("errors", Json.arr (es.errors.map errorItemJson))]

/-- A string is clean when it contains no character that JSON string
syntax requires to be escaped. -/
def cleanStr (s : String) : Prop :=
  ∀ c ∈ s.data, c ≠ quoteChar ∧ c ≠ backslashChar ∧ ¬ c.toNat < 32

instance (s : String) : Decidable (cleanStr s) := by
  unfold cleanStr
  infer_instance

/-- The fixed first detail of the fallback error payload. -/
def fallbackMsg : String := "failed to convert internal error to JSON"

/-- The character shape of one error object whose detail is spliced in
verbatim, as the fallback encoder produces it. -/
def itemChars (d t : List Char) : List Char :=
  lbrace :: (quoteChar :: ("detail".data ++ quoteChar :: ':' ::
    (quoteChar :: (d ++ quoteChar :: (rbrace :: t)))))

/-- Model of an anyhow Error as its chain of cause descriptions,
outermost first: the chain yields the error itself, then each source in
turn. -/
structure AnyhowError where
  chain : List String
deriving DecidableEq

/-- Model of the From Error instance for RegistryErrors in src/main.rs:
every cause in the chain becomes one RegistryError, in chain order. -/
def RegistryErrors.ofError (err : AnyhowError) : RegistryErrors :=
  ⟨err.chain.map (fun e => ⟨e⟩)⟩

/-- Model of encode_fallback_error in src/main.rs: the hand-built JSON
string, with the argument spliced in unescaped. -/
def encode_fallback_error (err : String) : String :=
  "\x7b\"errors\":[\n    \x7b\"detail\":\"failed to convert internal error to JSON\"\x7d,\n    \x7b\"detail\":\"" ++
    err ++ "\"\x7d\n  ]\x7d"

/-- A wire reply: a body string and a transport status code. -/
structure Reply where
  body : String
  status : Nat
deriving DecidableEq

/-- Model of the error branch of response: the encoded error list when
to_string succeeds, the fallback encoder applied to the serialization
failure otherwise. -/
def errorBody : Except String String → String
  | Except.ok s => s
  | Except.error e => encode_fallback_error e

/-- Model of the response function in src/main.rs: an empty body on
success, the encoded error array on failure, always with status OK. -/
def response (result : Except AnyhowError Unit) : Reply :=
  match result with
  | Except.ok _ => { body := "", status := 200 }
  | Except.error err =>
    { body := errorBody (to_string (RegistryErrors.ofError err)), status := 200 }

/-- A socket address: a host and a port. -/
structure SocketAddr where
  host : String
  port : Nat
deriving DecidableEq

/-- Replace the port of an address, as SocketAddr set_port does. -/
def SocketAddr.setPort (a : SocketAddr) (p : Nat) : SocketAddr :=
  { a with port := p }

/-- Model of the port-recovery step at the top of the async block in
run: when the requested port is 0 and try_read_port succeeds, the
recovered port is substituted; otherwise the requested address is kept
unchanged (a failed read is non-fatal). -/
def resolveAddr (tryReadPort : Except Unit Nat) (argsAddr : SocketAddr) : SocketAddr :=
  if argsAddr.port = 0 then
    match tryReadPort with
    | Except.ok p => argsAddr.setPort p
    | Except.error _ => argsAddr
  else argsAddr

/-- Model of the bind loop in run, with the bind attempt abstracted as
an oracle. Returns the loop result together with the list of addresses
attempted, in order: a failed attempt on a port differing from the
originally requested one resets the port and retries, any other failure
is returned. -/
def bindLoop (bind : SocketAddr → Except String SocketAddr) (addr : SocketAddr)
    (originalPort : Nat) : Except String SocketAddr × List SocketAddr :=
  match bind addr with
  | Except.ok a => (Except.ok a, [addr])
  | Except.error e =>
    if h : addr.port = originalPort then (Except.error e, [addr])
    else
      let r := bindLoop bind (addr.setPort originalPort) originalPort
      (r.1, addr :: r.2)
termination_by (if addr.port = originalPort then 0 else 1)
decreasing_by simp [SocketAddr.setPort, h]

/-- Startup events of the async block in run, in the order the source
performs them. -/
inductive SrvEvent where
  | bound (a : SocketAddr)
  | indexCreated (a : SocketAddr)
  | handleSet
  | serving
deriving DecidableEq

/-- The observable server state: the trace of startup events so far and
the shared index slot. -/
structure SrvState (ι : Type) where
  trace : List SrvEvent
  shared : Option ι

/-- Append an event to the trace. -/
def emit {ι : Type} (e : SrvEvent) (s : SrvState ι) : SrvState ι :=
  { s with trace := s.trace ++ [e] }

/-- Model of the async block of run in src/main.rs: recover the port,
bind with one retry, construct the index from the bound address,
populate the shared handle, then begin serving. The returned state is
the one in force when serving begins; index construction and the port
read are oracles for the index module. -/
def runServer {ι : Type} (bind : SocketAddr → Except String SocketAddr)
    (indexNew : SocketAddr → Except String ι)
    (tryReadPort : Except Unit Nat) (argsAddr : SocketAddr) :
    Except String (SrvState ι) :=
  let addr0 := resolveAddr tryReadPort argsAddr
  match (bindLoop bind addr0 argsAddr.port).1 with
  | Except.error e => Except.error e
  | Except.ok boundAddr =>
    let s1 : SrvState ι := emit (SrvEvent.bound boundAddr) ⟨[], none⟩
    match indexNew boundAddr with
    | Except.error e => Except.error e
    | Except.ok idx =>
      let s2 := emit (SrvEvent.indexCreated boundAddr) s1
      let s3 : SrvState ι := { s2 with shared := some idx }
      let s4 := emit SrvEvent.handleSet s3
      Except.ok (emit SrvEvent.serving s4)

/-- Model of main in src/main.rs: exit code 0 when run succeeds, 1 when
it fails, with the failure reported on standard error. -/
def mainModel {α : Type} (r : Except String α) : Nat × List String :=
  match r with
  | Except.ok _ => (0, [])
  | Except.error e => (1, [e])

/-- An inbound HTTP request as the publish filter chain sees it. -/
structure Request where
  method : String
  path : List String
  contentLength : Nat
  body : List Nat

/-- The outcome of a warp route: a reply, or a rejection. -/
inductive RouteResult where
  | replied (r : Reply)
  | rejected
deriving DecidableEq

/-- The body size cap from src/main.rs: 2 MiB. -/
def bodyLimit : Nat := 2 * 1024 * 1024

/-- Model of the publish warp filter chain in run: method and path
matching, body extraction, the content-length cap, then the handler
(publish_crate on the shared index state) and the response conversion.
A request failing any filter is rejected without running the handler. -/
def publishRoute {σ : Type} (handler : List Nat → σ → Except AnyhowError Unit × σ)
    (req : Request) (state : σ) : RouteResult × σ :=
  if req.method ≠ "PUT" then (RouteResult.rejected, state)
  else if req.path ≠ ["api", "v1", "crates", "new"] then (RouteResult.rejected, state)
  else if ¬ req.contentLength ≤ bodyLimit then (RouteResult.rejected, state)
  else
    let hr := handler req.body state
    (RouteResult.replied (response hr.1), hr.2)

/-! ## Basic lemmas about the JSON string codec -/

theorem stringMk_data (s : String) : String.mk s.data = s := by
  cases s
  rfl

theorem hexVal_hexDigitChar : ∀ m, m < 16 → hexVal (hexDigitChar m) = some m := by decide

theorem pSB_cons_plain (c : Char) (t : List Char) (h1 : c ≠ quoteChar)
    (h2 : c ≠ backslashChar) (h3 : ¬ c.toNat < 32) :
    parseStringBody (c :: t) = consFst c (parseStringBody t) := by
  conv_lhs => rw [parseStringBody]
  rw [if_neg h1, if_neg h2, if_neg h3]

theorem parseUnicode_low (m : Nat) (hm : m < 32) (t : List Char) :
    parseUnicode ('0' :: '0' :: hexDigitChar (m / 16) :: hexDigitChar (m % 16) :: t) =
      consFst (Char.ofNat m) (parseStringBody t) := by
  interval_cases m <;> rfl

theorem parseStringBody_escape (s rest : List Char) :
    parseStringBody ((s.map escapeChar).flatten ++ quoteChar :: rest) = some (s, rest) := by
  induction s with
  | nil => rfl
  | cons c s ih =>
    rw [List.map_cons, List.flatten_cons, List.append_assoc]
    by_cases hq : c = quoteChar
    · subst hq
      rw [show escapeChar quoteChar = [backslashChar, quoteChar] from by decide]
      show parseStringBody (backslashChar :: quoteChar ::
        ((s.map escapeChar).flatten ++ quoteChar :: rest)) = _
      rw [show ∀ t, parseStringBody (backslashChar :: quoteChar :: t) =
        consFst quoteChar (parseStringBody t) from fun t => rfl, ih]
      rfl
    · by_cases hb : c = backslashChar
      · subst hb
        rw [show escapeChar backslashChar = [backslashChar, backslashChar] from by decide]
        show parseStringBody (backslashChar :: backslashChar ::
          ((s.map escapeChar).flatten ++ quoteChar :: rest)) = _
        rw [show ∀ t, parseStringBody (backslashChar :: backslashChar :: t) =
          consFst backslashChar (parseStringBody t) from fun t => rfl, ih]
        rfl
      · by_cases h32 : c.toNat < 32
        · by_cases h8 : c.toNat = 8
          · rw [show escapeChar c = [backslashChar, 'b'] from by
              simp [escapeChar, hq, hb, h32, h8]]
            simp only [List.cons_append, List.nil_append]
            rw [show ∀ t, parseStringBody (backslashChar :: 'b' :: t) =
              consFst (Char.ofNat 8) (parseStringBody t) from fun t => rfl, ih]
            rw [show Char.ofNat 8 = c from by rw [← h8, Char.ofNat_toNat]]
            rfl
          · by_cases h9 : c.toNat = 9
            · rw [show escapeChar c = [backslashChar, 't'] from by
                simp [escapeChar, hq, hb, h32, h8, h9]]
              simp only [List.cons_append, List.nil_append]
              rw [show ∀ t, parseStringBody (backslashChar :: 't' :: t) =
                consFst (Char.ofNat 9) (parseStringBody t) from fun t => rfl, ih]
              rw [show Char.ofNat 9 = c from by rw [← h9, Char.ofNat_toNat]]
              rfl
            · by_cases h10 : c.toNat = 10
              · rw [show escapeChar c = [backslashChar, 'n'] from by
                  simp [escapeChar, hq, hb, h32, h8, h9, h10]]
                simp only [List.cons_append, List.nil_append]
                rw [show ∀ t, parseStringBody (backslashChar :: 'n' :: t) =
                  consFst (Char.ofNat 10) (parseStringBody t) from fun t => rfl, ih]
                rw [show Char.ofNat 10 = c from by rw [← h10, Char.ofNat_toNat]]
                rfl
              · by_cases h12 : c.toNat = 12
                · rw [show escapeChar c = [backslashChar, 'f'] from by
                    simp [escapeChar, hq, hb, h32, h8, h9, h10, h12]]
                  simp only [List.cons_append, List.nil_append]
                  rw [show ∀ t, parseStringBody (backslashChar :: 'f' :: t) =
                    consFst (Char.ofNat 12) (parseStringBody t) from fun t => rfl, ih]
                  rw [show Char.ofNat 12 = c from by rw [← h12, Char.ofNat_toNat]]
                  rfl
                · by_cases h13 : c.toNat = 13
                  · rw [show escapeChar c = [backslashChar, 'r'] from by
                      simp [escapeChar, hq, hb, h32, h8, h9, h10, h12, h13]]
                    simp only [List.cons_append, List.nil_append]
                    rw [show ∀ t, parseStringBody (backslashChar :: 'r' :: t) =
                      consFst (Char.ofNat 13) (parseStringBody t) from fun t => rfl, ih]
                    rw [show Char.ofNat 13 = c from by rw [← h13, Char.ofNat_toNat]]
                    rfl
                  · rw [show escapeChar c = [backslashChar, 'u', '0', '0',
                      hexDigitChar (c.toNat / 16), hexDigitChar (c.toNat % 16)] from by
                      simp [escapeChar, hq, hb, h32, h8, h9, h10, h12, h13]]
                    simp only [List.cons_append, List.nil_append]
                    rw [show ∀ d1 d2 t, parseStringBody (backslashChar :: 'u' :: '0' :: '0' :: d1 :: d2 :: t) =
                      parseUnicode ('0' :: '0' :: d1 :: d2 :: t) from fun d1 d2 t => rfl]
                    rw [parseUnicode_low c.toNat h32, ih, Char.ofNat_toNat]
                    rfl
        · rw [show escapeChar c = [c] from by simp [escapeChar, hq, hb, h32]]
          rw [List.singleton_append, pSB_cons_plain c _ hq hb h32, ih]
          rfl

theorem parseStringBody_clean (s : List Char)
    (h : ∀ c ∈ s, c ≠ quoteChar ∧ c ≠ backslashChar ∧ ¬ c.toNat < 32) (rest : List Char) :
    parseStringBody (s ++ quoteChar :: rest) = some (s, rest) := by
  induction s with
  | nil => rfl
  | cons c s ih =>
    obtain ⟨h1, h2, h3⟩ := h c (List.mem_cons_self c s)
    rw [List.cons_append, pSB_cons_plain c _ h1 h2 h3,
      ih (fun d hd => h d (List.mem_cons_of_mem c hd))]
    rfl

theorem parseValue_quote (f : Nat) (X : List Char) :
    parseValue (f + 1) (quoteChar :: X) =
      Option.map (fun p => (Json.str (String.mk p.1), p.2)) (parseStringBody X) := rfl

theorem pv_lbrace (f : Nat) (R : List Char) :
    parseValue (f + 1) (lbrace :: R) =
      (match skipWs R with
      | c2 :: _ =>
        if c2 = rbrace then some (Json.obj [], (skipWs R).tail)
        else Option.map (fun p => (Json.obj p.1, p.2)) (parseMembers f R)
      | [] => none) := by
  rw [show parseValue (f + 1) (lbrace :: R) =
    (match skipWs R with
    | c2 :: rest2 =>
      if c2 = rbrace then some (Json.obj [], rest2)
      else Option.map (fun p => (Json.obj p.1, p.2)) (parseMembers f R)
    | [] => none) from rfl]
  cases hR : skipWs R with
  | nil => rfl
  | cons c2 rest2 => simp

theorem pv_lbracket (f : Nat) (R : List Char) :
    parseValue (f + 1) ('[' :: R) =
      (match skipWs R with
      | c2 :: _ =>
        if c2 = ']' then some (Json.arr [], (skipWs R).tail)
        else Option.map (fun p => (Json.arr p.1, p.2)) (parseItems f R)
      | [] => none) := by
  rw [show parseValue (f + 1) ('[' :: R) =
    (match skipWs R with
    | c2 :: rest2 =>
      if c2 = ']' then some (Json.arr [], rest2)
      else Option.map (fun p => (Json.arr p.1, p.2)) (parseItems f R)
    | [] => none) from rfl]
  cases hR : skipWs R with
  | nil => rfl
  | cons c2 rest2 => simp

theorem parseValue_string (f : Nat) (s : String) (t : List Char) :
    parseValue (f + 1) (encodeStringChars s ++ t) = some (Json.str s, t) := by
  have he : encodeStringChars s ++ t =
      quoteChar :: ((s.data.map escapeChar).flatten ++ quoteChar :: t) := by
    simp [encodeStringChars]
  rw [he, parseValue_quote, parseStringBody_escape]
  simp [stringMk_data]

theorem skipWs_quote (t : List Char) : skipWs (quoteChar :: t) = quoteChar :: t := rfl

theorem skipWs_colon (t : List Char) : skipWs (':' :: t) = ':' :: t := rfl

theorem skipWs_rbrace (t : List Char) : skipWs (rbrace :: t) = rbrace :: t := rfl

theorem skipWs_lbrace (t : List Char) : skipWs (lbrace :: t) = lbrace :: t := rfl

theorem parseMembers_one (f : Nat) (key : List Char)
    (hkey : ∀ c ∈ key, c ≠ quoteChar ∧ c ≠ backslashChar ∧ ¬ c.toNat < 32)
    (X : List Char) (Y : Json) (t : List Char)
    (hv : parseValue f X = some (Y, rbrace :: t)) :
    parseMembers (f + 1) (quoteChar :: (key ++ quoteChar :: ':' :: X)) =
      some ([(String.mk key, Y)], t) := by
  have e1 : parseStringBody (key ++ quoteChar :: ':' :: X) =
      some (key, ':' :: X) :=
    parseStringBody_clean key hkey _
  simp only [parseMembers, skipWs_quote, e1, skipWs_colon, hv, skipWs_rbrace]
  simp +decide

theorem stringMkData (l : List Char) : (String.mk l).data = l := rfl

theorem skipWs_comma (t : List Char) : skipWs (',' :: t) = ',' :: t := rfl

theorem skipWs_rbracket (t : List Char) : skipWs (']' :: t) = ']' :: t := rfl

theorem encodeRegistryError_split (e : RegistryError) (t : List Char) :
    (encodeRegistryError e).data ++ t =
      lbrace :: (quoteChar :: ("detail".data ++ quoteChar :: ':' ::
        (encodeStringChars e.detail ++ rbrace :: t))) := by
  simp only [encodeRegistryError, String.data_append, encodeJsonString, stringMkData,
    show "\x7b\"detail\":".data =
      [lbrace, quoteChar, 'd', 'e', 't', 'a', 'i', 'l', quoteChar, ':'] from rfl,
    show "\x7d".data = [rbrace] from rfl,
    show "detail".data = ['d', 'e', 't', 'a', 'i', 'l'] from rfl]
  simp +decide [List.append_assoc]

theorem parseValue_errorItem (f : Nat) (e : RegistryError) (t : List Char) :
    parseValue (f + 3) ((encodeRegistryError e).data ++ t) = some (errorItemJson e, t) := by
  rw [encodeRegistryError_split, show f + 3 = (f + 2) + 1 from rfl, pv_lbrace, skipWs_quote]
  have hm := parseMembers_one (f + 1) "detail".data (by decide)
    (encodeStringChars e.detail ++ rbrace :: t) (Json.str e.detail) t
    (parseValue_string f e.detail (rbrace :: t))
  simp only [show "detail".data = ['d', 'e', 't', 'a', 'i', 'l'] from rfl,
    show String.mk ['d', 'e', 't', 'a', 'i', 'l'] = "detail" from rfl,
    show f + 1 + 1 = f + 2 from rfl,
    List.cons_append, List.nil_append] at hm
  simp +decide [hm, errorItemJson]

theorem pItems_succ (f : Nat) (cs : List Char) :
    parseItems (f + 1) cs =
      (match parseValue f cs with
      | some (v, r1) =>
        (match skipWs r1 with
        | c :: r2 =>
          if c = ',' then Option.map (fun p => (v :: p.1, p.2)) (parseItems f r2)
          else if c = ']' then some ([v], r2)
          else none
        | [] => none)
      | none => none) := rfl

theorem encodeErrorsList_cons_split (e e2 : RegistryError) (l2 : List RegistryError)
    (t : List Char) :
    (encodeErrorsList (e :: e2 :: l2)).data ++ t =
      (encodeRegistryError e).data ++ ',' :: ((encodeErrorsList (e2 :: l2)).data ++ t) := by
  simp only [encodeErrorsList, String.data_append, show ",".data = [','] from rfl]
  simp [List.append_assoc]

theorem parseItems_errors (l : List RegistryError) :
    l ≠ [] → ∀ (f : Nat) (t : List Char),
    parseItems (l.length + f + 4) ((encodeErrorsList l).data ++ ']' :: t) =
      some (l.map errorItemJson, t) := by
  induction l with
  | nil => intro hl ; cases hl rfl
  | cons e l ih =>
    intro _ f t
    cases l with
    | nil =>
      rw [show ([e] : List RegistryError).length + f + 4 = (f + 4) + 1 from by simp ; omega,
        pItems_succ]
      have hv : parseValue (f + 4) ((encodeErrorsList [e]).data ++ ']' :: t) =
          some (errorItemJson e, ']' :: t) := by
        rw [show (encodeErrorsList [e] : String) = encodeRegistryError e from rfl,
          show f + 4 = (f + 1) + 3 from by omega]
        exact parseValue_errorItem (f + 1) e (']' :: t)
      rw [hv]
      simp +decide [skipWs_rbracket]
    | cons e2 l2 =>
      rw [show (e :: e2 :: l2).length + f + 4 = ((e2 :: l2).length + f + 4) + 1 from by
        simp ; omega]
      rw [encodeErrorsList_cons_split, pItems_succ]
      have hv : parseValue ((e2 :: l2).length + f + 4)
          ((encodeRegistryError e).data ++ ',' :: ((encodeErrorsList (e2 :: l2)).data ++ ']' :: t)) =
          some (errorItemJson e, ',' :: ((encodeErrorsList (e2 :: l2)).data ++ ']' :: t)) := by
        rw [show (e2 :: l2).length + f + 4 = ((e2 :: l2).length + f + 1) + 3 from by omega]
        exact parseValue_errorItem _ e _
      rw [hv]
      simp only [skipWs_comma, if_true]
      rw [ih (by simp) f t]
      simp

theorem encodeErrorsList_cons_head (e : RegistryError) (l : List RegistryError) :
    ∃ w, (encodeErrorsList (e :: l)).data = lbrace :: w := by
  cases l with
  | nil =>
    have h2 := encodeRegistryError_split e []
    rw [List.append_nil] at h2
    exact ⟨_, by rw [show encodeErrorsList [e] = encodeRegistryError e from rfl, h2]⟩
  | cons e2 l2 =>
    have h1 := encodeErrorsList_cons_split e e2 l2 []
    rw [List.append_nil] at h1
    have h2 := encodeRegistryError_split e []
    rw [List.append_nil] at h2
    exact ⟨_, by rw [h1, h2, List.cons_append]⟩

theorem encodeRegistryErrors_split (es : RegistryErrors) (t : List Char) :
    (encodeRegistryErrors es).data ++ t =
      lbrace :: (quoteChar :: ("errors".data ++ quoteChar :: ':' ::
        (('[' :: ((encodeErrorsList es.errors).data ++ [']'])) ++ rbrace :: t))) := by
  simp only [encodeRegistryErrors, String.data_append,
    show "\x7b\"errors\":[".data =
      [lbrace, quoteChar, 'e', 'r', 'r', 'o', 'r', 's', quoteChar, ':', '['] from rfl,
    show "]\x7d".data = [']', rbrace] from rfl,
    show "errors".data = ['e', 'r', 'r', 'o', 'r', 's'] from rfl]
  simp +decide [List.append_assoc]

theorem parseValue_registryErrors (es : RegistryErrors) (f : Nat) (t : List Char) :
    parseValue (es.errors.length + f + 7) ((encodeRegistryErrors es).data ++ t) =
      some (jsonOfErrors es, t) := by
  rw [encodeRegistryErrors_split,
    show es.errors.length + f + 7 = (es.errors.length + f + 6) + 1 from by omega,
    pv_lbrace, skipWs_quote]
  have hv : parseValue (es.errors.length + f + 5)
      (('[' :: ((encodeErrorsList es.errors).data ++ [']'])) ++ rbrace :: t) =
      some (Json.arr (es.errors.map errorItemJson), rbrace :: t) := by
    rw [show ('[' :: ((encodeErrorsList es.errors).data ++ [']'])) ++ rbrace :: t =
      '[' :: ((encodeErrorsList es.errors).data ++ ']' :: rbrace :: t) from by simp,
      show es.errors.length + f + 5 = (es.errors.length + f + 4) + 1 from by omega,
      pv_lbracket]
    cases hes : es.errors with
    | nil => simp +decide [encodeErrorsList, skipWs_rbracket, show "".data = ([] : List Char) from rfl]
    | cons e l =>
      obtain ⟨w, hw⟩ := encodeErrorsList_cons_head e l
      have hp := parseItems_errors (e :: l) (by simp) f (rbrace :: t)
      rw [hw] at hp
      rw [hw, List.cons_append, skipWs_lbrace]
      have hp2 : parseItems (l.length + 1 + f + 4) (lbrace :: (w ++ ']' :: rbrace :: t)) =
          some (errorItemJson e :: List.map errorItemJson l, rbrace :: t) := by
        simpa using hp
      simp +decide [List.cons_append, hp2]
  have hm := parseMembers_one (es.errors.length + f + 5) "errors".data (by decide)
    (('[' :: ((encodeErrorsList es.errors).data ++ [']'])) ++ rbrace :: t)
    (Json.arr (es.errors.map errorItemJson)) t hv
  simp only [show "errors".data = ['e', 'r', 'r', 'o', 'r', 's'] from rfl,
    show String.mk ['e', 'r', 'r', 'o', 'r', 's'] = "errors" from rfl,
    show es.errors.length + f + 5 + 1 = es.errors.length + f + 6 from rfl,
    List.cons_append, List.nil_append, List.append_assoc, List.singleton_append] at hm
  simp +decide [hm, jsonOfErrors]

theorem registryErrorOfJson_item (e : RegistryError) :
    registryErrorOfJson (errorItemJson e) = some e := by
  simp +decide [registryErrorOfJson, errorItemJson, jsonField]

theorem decodeErrorItems_map (l : List RegistryError) :
    decodeErrorItems (l.map errorItemJson) = some l := by
  induction l with
  | nil => rfl
  | cons e l ih => simp [decodeErrorItems, registryErrorOfJson_item, ih]

theorem registryErrorsOfJson_jsonOf (es : RegistryErrors) :
    registryErrorsOfJson (jsonOfErrors es) = some es := by
  simp +decide [registryErrorsOfJson, jsonOfErrors, jsonField, decodeErrorItems_map es.errors]

theorem encodeErrorsList_length_ge (l : List RegistryError) :
    l.length ≤ (encodeErrorsList l).data.length := by
  induction l with
  | nil => simp [encodeErrorsList]
  | cons e l ih =>
    cases l with
    | nil =>
      simp [encodeErrorsList, encodeRegistryError, String.data_append]
    | cons e2 l2 =>
      have hk : ("\x7b\"detail\":" : String).data.length = 10 := rfl
      have hk2 : ("\x7d" : String).data.length = 1 := rfl
      simp only [encodeErrorsList, encodeRegistryError, String.data_append,
        List.length_append, List.length_cons, List.length_nil, hk, hk2] at *
      omega

theorem decode_encode (es : RegistryErrors) :
    decodeRegistryErrors (encodeRegistryErrors es) = some es := by
  have hlen : es.errors.length + 6 ≤ (encodeRegistryErrors es).data.length := by
    have h1 := encodeErrorsList_length_ge es.errors
    have h2 : ("\x7b\"errors\":[" : String).data.length = 11 := rfl
    have h3 : ("]\x7d" : String).data.length = 2 := rfl
    simp only [encodeRegistryErrors, String.data_append, List.length_append,
      List.length_cons, List.length_nil, h2, h3]
    omega
  obtain ⟨g, hg⟩ : ∃ g, (encodeRegistryErrors es).data.length + 1 = es.errors.length + g + 7 :=
    ⟨(encodeRegistryErrors es).data.length + 1 - es.errors.length - 7, by omega⟩
  have h := parseValue_registryErrors es g []
  rw [List.append_nil] at h
  unfold decodeRegistryErrors parseJson
  rw [hg, h]
  simp [registryErrorsOfJson_jsonOf, skipWs]

theorem parseValue_rawItem (g : Nat) (d : List Char)
    (hd : ∀ c ∈ d, c ≠ quoteChar ∧ c ≠ backslashChar ∧ ¬ c.toNat < 32) (t : List Char) :
    parseValue (g + 3) (itemChars d t) =
      some (Json.obj [("detail", Json.str (String.mk d))], t) := by
  unfold itemChars
  rw [show g + 3 = (g + 2) + 1 from rfl, pv_lbrace, skipWs_quote]
  have hv : parseValue (g + 1) (quoteChar :: (d ++ quoteChar :: (rbrace :: t))) =
      some (Json.str (String.mk d), rbrace :: t) := by
    rw [parseValue_quote, parseStringBody_clean d hd]
    rfl
  have hm := parseMembers_one (g + 1) "detail".data (by decide)
    (quoteChar :: (d ++ quoteChar :: (rbrace :: t))) (Json.str (String.mk d)) t hv
  simp only [show "detail".data = ['d', 'e', 't', 'a', 'i', 'l'] from rfl,
    show String.mk ['d', 'e', 't', 'a', 'i', 'l'] = "detail" from rfl,
    show g + 1 + 1 = g + 2 from rfl,
    List.cons_append, List.nil_append] at hm
  simp +decide [hm]

theorem pv_ws4 (g : Nat) (X : List Char) :
    parseValue (g + 1) (Char.ofNat 10 :: Char.ofNat 32 :: Char.ofNat 32 :: Char.ofNat 32 ::
      Char.ofNat 32 :: X) = parseValue (g + 1) X := rfl

theorem skipWs_tail2 (t : List Char) :
    skipWs (Char.ofNat 10 :: Char.ofNat 32 :: Char.ofNat 32 :: t) = skipWs t := rfl

theorem parseItems_fallback (g : Nat) (d : List Char)
    (hd : ∀ c ∈ d, c ≠ quoteChar ∧ c ≠ backslashChar ∧ ¬ c.toNat < 32) (t : List Char) :
    parseItems (g + 5)
      (Char.ofNat 10 :: Char.ofNat 32 :: Char.ofNat 32 :: Char.ofNat 32 :: Char.ofNat 32 ::
        itemChars fallbackMsg.data
          (',' :: (Char.ofNat 10 :: Char.ofNat 32 :: Char.ofNat 32 :: Char.ofNat 32 ::
            Char.ofNat 32 ::
            itemChars d (Char.ofNat 10 :: Char.ofNat 32 :: Char.ofNat 32 :: (']' :: t))))) =
      some ([Json.obj [("detail", Json.str fallbackMsg)],
        Json.obj [("detail", Json.str (String.mk d))]], t) := by
  have h1 : parseValue (g + 4)
      (Char.ofNat 10 :: Char.ofNat 32 :: Char.ofNat 32 :: Char.ofNat 32 :: Char.ofNat 32 ::
        itemChars fallbackMsg.data
          (',' :: (Char.ofNat 10 :: Char.ofNat 32 :: Char.ofNat 32 :: Char.ofNat 32 ::
            Char.ofNat 32 ::
            itemChars d (Char.ofNat 10 :: Char.ofNat 32 :: Char.ofNat 32 :: (']' :: t))))) =
      some (Json.obj [("detail", Json.str fallbackMsg)],
        ',' :: (Char.ofNat 10 :: Char.ofNat 32 :: Char.ofNat 32 :: Char.ofNat 32 ::
          Char.ofNat 32 ::
          itemChars d (Char.ofNat 10 :: Char.ofNat 32 :: Char.ofNat 32 :: (']' :: t)))) := by
    rw [show g + 4 = (g + 3) + 1 from rfl, pv_ws4, show (g + 3) + 1 = (g + 1) + 3 from rfl]
    have h := parseValue_rawItem (g + 1) fallbackMsg.data (by decide)
      (',' :: (Char.ofNat 10 :: Char.ofNat 32 :: Char.ofNat 32 :: Char.ofNat 32 ::
        Char.ofNat 32 ::
        itemChars d (Char.ofNat 10 :: Char.ofNat 32 :: Char.ofNat 32 :: (']' :: t))))
    simpa [stringMk_data] using h
  have h2 : parseValue (g + 3)
      (Char.ofNat 10 :: Char.ofNat 32 :: Char.ofNat 32 :: Char.ofNat 32 :: Char.ofNat 32 ::
        itemChars d (Char.ofNat 10 :: Char.ofNat 32 :: Char.ofNat 32 :: (']' :: t))) =
      some (Json.obj [("detail", Json.str (String.mk d))],
        Char.ofNat 10 :: Char.ofNat 32 :: Char.ofNat 32 :: (']' :: t)) := by
    rw [show g + 3 = (g + 2) + 1 from rfl, pv_ws4, show (g + 2) + 1 = g + 3 from rfl]
    exact parseValue_rawItem g d hd (Char.ofNat 10 :: Char.ofNat 32 :: Char.ofNat 32 :: (']' :: t))
  rw [show g + 5 = (g + 4) + 1 from rfl, pItems_succ, h1]
  simp only [skipWs_comma]
  simp +decide only []
  rw [show g + 4 = (g + 3) + 1 from rfl, pItems_succ, h2]
  simp +decide [skipWs_tail2, skipWs_rbracket]

theorem skipWs_ws4 (X : List Char) :
    skipWs (Char.ofNat 10 :: Char.ofNat 32 :: Char.ofNat 32 :: Char.ofNat 32 ::
      Char.ofNat 32 :: X) = skipWs X := rfl

theorem encode_fallback_split (e : String) :
    (encode_fallback_error e).data =
      lbrace :: (quoteChar :: ("errors".data ++ quoteChar :: ':' ::
        ('[' :: (Char.ofNat 10 :: Char.ofNat 32 :: Char.ofNat 32 :: Char.ofNat 32 ::
          Char.ofNat 32 ::
          itemChars fallbackMsg.data
            (',' :: (Char.ofNat 10 :: Char.ofNat 32 :: Char.ofNat 32 :: Char.ofNat 32 ::
              Char.ofNat 32 ::
              itemChars e.data (Char.ofNat 10 :: Char.ofNat 32 :: Char.ofNat 32 ::
                (']' :: (rbrace :: []))))))))) := by
  simp +decide [encode_fallback_error, String.data_append, itemChars, fallbackMsg,
    List.cons_append, List.nil_append, List.append_assoc]

theorem parseValue_fallback (g : Nat) (e : String) (h : cleanStr e) :
    parseValue (g + 8) ((encode_fallback_error e).data) =
      some (Json.obj [("errors", Json.arr [Json.obj [("detail", Json.str fallbackMsg)],
        Json.obj [("detail", Json.str e)]])], []) := by
  rw [encode_fallback_split, show g + 8 = (g + 7) + 1 from rfl, pv_lbrace, skipWs_quote]
  have hv : parseValue (g + 6)
      ('[' :: (Char.ofNat 10 :: Char.ofNat 32 :: Char.ofNat 32 :: Char.ofNat 32 ::
        Char.ofNat 32 ::
        itemChars fallbackMsg.data
          (',' :: (Char.ofNat 10 :: Char.ofNat 32 :: Char.ofNat 32 :: Char.ofNat 32 ::
            Char.ofNat 32 ::
            itemChars e.data (Char.ofNat 10 :: Char.ofNat 32 :: Char.ofNat 32 ::
              (']' :: (rbrace :: []))))))) =
      some (Json.arr [Json.obj [("detail", Json.str fallbackMsg)],
        Json.obj [("detail", Json.str e)]], rbrace :: []) := by
    rw [show g + 6 = (g + 5) + 1 from rfl, pv_lbracket, skipWs_ws4]
    have hp := parseItems_fallback g e.data h (rbrace :: [])
    simp only [stringMk_data] at hp
    simp only [itemChars, show "detail".data = ['d', 'e', 't', 'a', 'i', 'l'] from rfl,
      List.cons_append, List.nil_append] at hp ⊢
    rw [skipWs_lbrace]
    simp +decide [hp]
  have hm := parseMembers_one (g + 6) "errors".data (by decide)
    ('[' :: (Char.ofNat 10 :: Char.ofNat 32 :: Char.ofNat 32 :: Char.ofNat 32 ::
      Char.ofNat 32 ::
      itemChars fallbackMsg.data
        (',' :: (Char.ofNat 10 :: Char.ofNat 32 :: Char.ofNat 32 :: Char.ofNat 32 ::
          Char.ofNat 32 ::
          itemChars e.data (Char.ofNat 10 :: Char.ofNat 32 :: Char.ofNat 32 ::
            (']' :: (rbrace :: [])))))))
    (Json.arr [Json.obj [("detail", Json.str fallbackMsg)],
      Json.obj [("detail", Json.str e)]]) [] hv
  simp only [show "errors".data = ['e', 'r', 'r', 'o', 'r', 's'] from rfl,
    show String.mk ['e', 'r', 'r', 'o', 'r', 's'] = "errors" from rfl,
    show g + 6 + 1 = g + 7 from rfl,
    List.cons_append, List.nil_append] at hm
  simp +decide [hm]

theorem decode_fallback (e : String) (h : cleanStr e) :
    decodeRegistryErrors (encode_fallback_error e) =
      some ⟨[⟨fallbackMsg⟩, ⟨e⟩]⟩ := by
  have hlen : 7 ≤ (encode_fallback_error e).data.length := by
    rw [encode_fallback_split]
    simp [itemChars]
  obtain ⟨g, hg⟩ : ∃ g, (encode_fallback_error e).data.length + 1 = g + 8 :=
    ⟨(encode_fallback_error e).data.length - 7, by omega⟩
  unfold decodeRegistryErrors parseJson
  rw [hg, parseValue_fallback g e h]
  simp +decide [registryErrorsOfJson, jsonField, decodeErrorItems, registryErrorOfJson, skipWs]

/-! ## Lemmas about the startup model -/

theorem bindLoop_ok (bind : SocketAddr → Except String SocketAddr) (addr : SocketAddr)
    (orig : Nat) (a : SocketAddr) (h : bind addr = Except.ok a) :
    bindLoop bind addr orig = (Except.ok a, [addr]) := by
  rw [bindLoop, h]

theorem bindLoop_err_same (bind : SocketAddr → Except String SocketAddr) (addr : SocketAddr)
    (orig : Nat) (e : String) (h : bind addr = Except.error e) (hp : addr.port = orig) :
    bindLoop bind addr orig = (Except.error e, [addr]) := by
  rw [bindLoop, h]
  simp [hp]

theorem bindLoop_err_retry (bind : SocketAddr → Except String SocketAddr) (addr : SocketAddr)
    (orig : Nat) (e : String) (h : bind addr = Except.error e) (hp : ¬ addr.port = orig) :
    bindLoop bind addr orig =
      ((bindLoop bind (addr.setPort orig) orig).1,
        addr :: (bindLoop bind (addr.setPort orig) orig).2) := by
  rw [bindLoop, h]
  simp [hp]

theorem bindLoop_same_attempts (bind : SocketAddr → Except String SocketAddr)
    (addr : SocketAddr) (orig : Nat) (hp : addr.port = orig) :
    (bindLoop bind addr orig).2 = [addr] := by
  cases h : bind addr with
  | ok a => rw [bindLoop_ok bind addr orig a h]
  | error e => rw [bindLoop_err_same bind addr orig e h hp]

theorem setPort_port (a : SocketAddr) (p : Nat) : (a.setPort p).port = p := rfl

theorem setPort_setPort (a : SocketAddr) (p q : Nat) :
    (a.setPort p).setPort q = a.setPort q := rfl

theorem setPort_self (a : SocketAddr) : a.setPort a.port = a := rfl

theorem bindLoop_attempts_le_two (bind : SocketAddr → Except String SocketAddr)
    (addr : SocketAddr) (orig : Nat) :
    (bindLoop bind addr orig).2.length ≤ 2 := by
  cases h : bind addr with
  | ok a => rw [bindLoop_ok bind addr orig a h] ; simp
  | error e =>
    by_cases hp : addr.port = orig
    · rw [bindLoop_err_same bind addr orig e h hp] ; simp
    · rw [bindLoop_err_retry bind addr orig e h hp]
      simp [bindLoop_same_attempts bind (addr.setPort orig) orig (setPort_port addr orig)]

theorem runServer_ok {ι : Type} (bind : SocketAddr → Except String SocketAddr)
    (indexNew : SocketAddr → Except String ι)
    (tryReadPort : Except Unit Nat) (argsAddr : SocketAddr) (s : SrvState ι)
    (hrun : runServer bind indexNew tryReadPort argsAddr = Except.ok s) :
    ∃ a idx,
      (bindLoop bind (resolveAddr tryReadPort argsAddr) argsAddr.port).1 = Except.ok a ∧
      indexNew a = Except.ok idx ∧
      s.trace = [SrvEvent.bound a, SrvEvent.indexCreated a, SrvEvent.handleSet,
        SrvEvent.serving] ∧
      s.shared = some idx := by
  unfold runServer at hrun
  dsimp only at hrun
  cases hb : (bindLoop bind (resolveAddr tryReadPort argsAddr) argsAddr.port).1 with
  | error e => rw [hb] at hrun ; cases hrun
  | ok a =>
    rw [hb] at hrun
    dsimp only at hrun
    cases hi : indexNew a with
    | error e => rw [hi] at hrun ; cases hrun
    | ok idx =>
      rw [hi] at hrun
      dsimp only at hrun
      have hs := Except.ok.inj hrun
      refine ⟨a, idx, rfl, hi, ?_, ?_⟩
      · rw [← hs] ; rfl
      · rw [← hs] ; rfl

theorem bindLoop_attempts_head (bind : SocketAddr → Except String SocketAddr)
    (addr : SocketAddr) (orig : Nat) :
    (bindLoop bind addr orig).2.head? = some addr := by
  cases h : bind addr with
  | ok a => rw [bindLoop_ok bind addr orig a h] ; rfl
  | error e =>
    by_cases hp : addr.port = orig
    · rw [bindLoop_err_same bind addr orig e h hp] ; rfl
    · rw [bindLoop_err_retry bind addr orig e h hp] ; rfl

/-! ## The claims -/

/-- C1: for every result of a publish request the response carries the
transport-level success status 200; the outcome is communicated solely
via the body, which is empty on success and on error is exactly the
JSON error-array payload of the converted error chain — a payload that
decodes back to that error array. -/
theorem claim_C1 (r : Except AnyhowError Unit) :
    (response r).status = 200 ∧
    (r = Except.ok () → (response r).body = "") ∧
    (∀ err, r = Except.error err →
      (response r).body = encodeRegistryErrors (RegistryErrors.ofError err) ∧
      decodeRegistryErrors (response r).body = some (RegistryErrors.ofError err)) := by
  refine ⟨?_, ?_, ?_⟩
  · cases r <;> rfl
  · intro h
    subst h
    rfl
  · intro err h
    subst h
    refine ⟨rfl, ?_⟩
    rw [show (response (Except.error err)).body =
      encodeRegistryErrors (RegistryErrors.ofError err) from rfl]
    exact decode_encode _

theorem claim_C1_witness :
    (response (Except.error ⟨["boom"]⟩)).status = 200 ∧
    (response (Except.error ⟨["boom"]⟩)).body =
      encodeRegistryErrors (RegistryErrors.ofError ⟨["boom"]⟩) ∧
    decodeRegistryErrors (response (Except.error ⟨["boom"]⟩)).body =
      some (RegistryErrors.ofError ⟨["boom"]⟩) :=
  ⟨(claim_C1 (Except.error ⟨["boom"]⟩)).1,
    (claim_C1 (Except.error ⟨["boom"]⟩)).2.2 ⟨["boom"]⟩ rfl⟩

/-- C2: converting a pipeline error into the response error array
produces exactly one detail string per cause, in order from the
outermost cause to the innermost, each detail being that cause's
description; the conversion is a total function and cannot fail. -/
theorem claim_C2 (err : AnyhowError) :
    (RegistryErrors.ofError err).errors.length = err.chain.length ∧
    (∀ i (h : i < err.chain.length),
      ((RegistryErrors.ofError err).errors.get
        ⟨i, by simpa [RegistryErrors.ofError] using h⟩).detail = err.chain.get ⟨i, h⟩) := by
  constructor
  · simp [RegistryErrors.ofError]
  · intro i h
    simp [RegistryErrors.ofError]

theorem claim_C2_witness :
    (RegistryErrors.ofError ⟨["outer", "inner"]⟩).errors.length = 2 ∧
    ((RegistryErrors.ofError ⟨["outer", "inner"]⟩).errors.get ⟨0, by decide⟩).detail =
      "outer" ∧
    ((RegistryErrors.ofError ⟨["outer", "inner"]⟩).errors.get ⟨1, by decide⟩).detail =
      "inner" := by
  refine ⟨by simpa using (claim_C2 ⟨["outer", "inner"]⟩).1,
    by simpa using (claim_C2 ⟨["outer", "inner"]⟩).2 0 (by decide),
    by simpa using (claim_C2 ⟨["outer", "inner"]⟩).2 1 (by decide)⟩

/-- C3: every successful startup binds the listener and obtains its
resolved address, then constructs the index from that address, then
populates the shared handle, and only then begins serving — the startup
trace is exactly bound, indexCreated, handleSet, serving in that order
— and when serving begins the shared handle holds the constructed
index, so no steady-state request observes an empty handle. -/
theorem claim_C3 {ι : Type} (bind : SocketAddr → Except String SocketAddr)
    (indexNew : SocketAddr → Except String ι)
    (tryReadPort : Except Unit Nat) (argsAddr : SocketAddr) (s : SrvState ι)
    (hrun : runServer bind indexNew tryReadPort argsAddr = Except.ok s) :
    ∃ a idx,
      (bindLoop bind (resolveAddr tryReadPort argsAddr) argsAddr.port).1 = Except.ok a ∧
      indexNew a = Except.ok idx ∧
      s.trace = [SrvEvent.bound a, SrvEvent.indexCreated a, SrvEvent.handleSet,
        SrvEvent.serving] ∧
      s.shared = some idx ∧
      s.shared.isSome = true := by
  obtain ⟨a, idx, h1, h2, h3, h4⟩ := runServer_ok bind indexNew tryReadPort argsAddr s hrun
  exact ⟨a, idx, h1, h2, h3, h4, by rw [h4] ; rfl⟩

theorem claim_C3_witness :
    ∃ a idx,
      (bindLoop (fun a => Except.ok a)
        (resolveAddr (Except.error ()) ⟨"127.0.0.1", 0⟩)
        (SocketAddr.port ⟨"127.0.0.1", 0⟩)).1 = Except.ok a ∧
      (Except.ok 7 : Except String Nat) = Except.ok idx ∧
      (⟨[SrvEvent.bound ⟨"127.0.0.1", 0⟩, SrvEvent.indexCreated ⟨"127.0.0.1", 0⟩,
        SrvEvent.handleSet, SrvEvent.serving], some 7⟩ : SrvState Nat).trace =
        [SrvEvent.bound a, SrvEvent.indexCreated a, SrvEvent.handleSet, SrvEvent.serving] ∧
      (⟨[SrvEvent.bound ⟨"127.0.0.1", 0⟩, SrvEvent.indexCreated ⟨"127.0.0.1", 0⟩,
        SrvEvent.handleSet, SrvEvent.serving], some 7⟩ : SrvState Nat).shared = some idx ∧
      (⟨[SrvEvent.bound ⟨"127.0.0.1", 0⟩, SrvEvent.indexCreated ⟨"127.0.0.1", 0⟩,
        SrvEvent.handleSet, SrvEvent.serving], some 7⟩ : SrvState Nat).shared.isSome = true :=
  claim_C3 (fun a => Except.ok a) (fun _ => (Except.ok 7 : Except String Nat))
    (Except.error ()) ⟨"127.0.0.1", 0⟩
    ⟨[SrvEvent.bound ⟨"127.0.0.1", 0⟩, SrvEvent.indexCreated ⟨"127.0.0.1", 0⟩,
      SrvEvent.handleSet, SrvEvent.serving], some 7⟩
    (by
      rw [runServer]
      rw [show resolveAddr (Except.error ()) (⟨"127.0.0.1", 0⟩ : SocketAddr) =
        (⟨"127.0.0.1", 0⟩ : SocketAddr) from rfl]
      rw [bindLoop_ok (fun a => Except.ok a) ⟨"127.0.0.1", 0⟩
        (SocketAddr.port ⟨"127.0.0.1", 0⟩) ⟨"127.0.0.1", 0⟩ rfl]
      rfl)

/-- C4: with an ephemeral bind request (port 0): a successfully
recovered previous port is tried first; a failed configuration read is
non-fatal and the original ephemeral request is used instead; and when
binding to a recovered nonzero port fails, the original requested
ephemeral address is retried as a fallback, the attempts being exactly
the recovered address then the original, with the startup outcome that
of binding the original address rather than an outright failure. -/
theorem claim_C4 (bind : SocketAddr → Except String SocketAddr) (argsAddr : SocketAddr)
    (h0 : argsAddr.port = 0) :
    (∀ p, (bindLoop bind (resolveAddr (Except.ok p) argsAddr) argsAddr.port).2.head? =
      some (argsAddr.setPort p)) ∧
    resolveAddr (Except.error ()) argsAddr = argsAddr ∧
    (∀ p e, p ≠ 0 → bind (argsAddr.setPort p) = Except.error e →
      (bindLoop bind (resolveAddr (Except.ok p) argsAddr) argsAddr.port).2 =
        [argsAddr.setPort p, argsAddr] ∧
      (bindLoop bind (resolveAddr (Except.ok p) argsAddr) argsAddr.port).1 =
        (bindLoop bind argsAddr argsAddr.port).1) := by
  have hres : ∀ p, resolveAddr (Except.ok p) argsAddr = argsAddr.setPort p := by
    intro p
    simp [resolveAddr, h0]
  refine ⟨?_, ?_, ?_⟩
  · intro p
    rw [hres p]
    exact bindLoop_attempts_head bind (argsAddr.setPort p) argsAddr.port
  · simp [resolveAddr, h0]
  · intro p e hp hbind
    have hne : ¬ (argsAddr.setPort p).port = argsAddr.port := by
      rw [setPort_port, h0]
      exact hp
    have hback : (argsAddr.setPort p).setPort argsAddr.port = argsAddr := by
      rw [setPort_setPort, setPort_self]
    rw [hres p, bindLoop_err_retry bind (argsAddr.setPort p) argsAddr.port e hbind hne, hback]
    exact ⟨by rw [bindLoop_same_attempts bind argsAddr argsAddr.port rfl], rfl⟩

theorem claim_C4_witness :
    (bindLoop (fun a => if a.port = 5 then Except.error "x" else Except.ok a)
      (resolveAddr (Except.ok 5) ⟨"h", 0⟩) (SocketAddr.port ⟨"h", 0⟩)).2 =
      [SocketAddr.setPort ⟨"h", 0⟩ 5, ⟨"h", 0⟩] ∧
    (bindLoop (fun a => if a.port = 5 then Except.error "x" else Except.ok a)
      (resolveAddr (Except.ok 5) ⟨"h", 0⟩) (SocketAddr.port ⟨"h", 0⟩)).1 =
      (bindLoop (fun a => if a.port = 5 then Except.error "x" else Except.ok a)
        ⟨"h", 0⟩ (SocketAddr.port ⟨"h", 0⟩)).1 :=
  (claim_C4 (fun a => if a.port = 5 then Except.error "x" else Except.ok a)
    ⟨"h", 0⟩ rfl).2.2 5 "x" (by decide) rfl

/-- C5 counterexample: for the cause string consisting of one double
quote character, the hand-built fallback output does not parse as a
valid error-array payload, refuting the claim's universal
well-formedness statement. -/
theorem claim_C5_counterexample :
    decodeRegistryErrors (encode_fallback_error "\"") = none := by decide

/-- C5 (amended): whenever the normal JSON conversion fails, the error
branch of the response produces exactly the hand-built fallback string
for the failure description; and for every cause string containing no
character that JSON string syntax requires escaping (no double quote,
no backslash, no control character), the fallback output reports both
the fixed encoding-failure message and the cause, and parses as a valid
error-array payload whose two details are exactly those strings. -/
theorem claim_C5 (e : String) :
    (∀ enc : Except String String, enc = Except.error e →
      errorBody enc = encode_fallback_error e) ∧
    (cleanStr e →
      decodeRegistryErrors (encode_fallback_error e) =
        some ⟨[⟨fallbackMsg⟩, ⟨e⟩]⟩) := by
  constructor
  · intro enc h
    subst h
    rfl
  · intro h
    exact decode_fallback e h

theorem claim_C5_witness :
    errorBody (Except.error "boom") = encode_fallback_error "boom" ∧
    decodeRegistryErrors (encode_fallback_error "boom") =
      some ⟨[⟨fallbackMsg⟩, ⟨"boom"⟩]⟩ :=
  ⟨(claim_C5 "boom").1 (Except.error "boom") rfl, (claim_C5 "boom").2 (by decide)⟩

/-- C6: the fallback encoder applied to the cause "foobar" yields
exactly the documented string, and the normal error-array decoder
recovers exactly two errors, the first being the fixed message about
JSON conversion failure and the second being "foobar". -/
theorem claim_C6 :
    encode_fallback_error "foobar" =
      "\x7b\"errors\":[\n    \x7b\"detail\":\"failed to convert internal error to JSON\"\x7d,\n    \x7b\"detail\":\"foobar\"\x7d\n  ]\x7d" ∧
    decodeRegistryErrors (encode_fallback_error "foobar") =
      some ⟨[⟨"failed to convert internal error to JSON"⟩, ⟨"foobar"⟩]⟩ :=
  ⟨rfl, by decide⟩

/-- C7: serializing the error list with the single detail
"error message text" yields exactly the expected payload, serde_json
to_string succeeds on it, and decoding that payload recovers the same
single detail (encode/decode round trip at this value). -/
theorem claim_C7 :
    to_string ⟨[⟨"error message text"⟩]⟩ =
      Except.ok "\x7b\"errors\":[\x7b\"detail\":\"error message text\"\x7d]\x7d" ∧
    encodeRegistryErrors ⟨[⟨"error message text"⟩]⟩ =
      "\x7b\"errors\":[\x7b\"detail\":\"error message text\"\x7d]\x7d" ∧
    decodeRegistryErrors "\x7b\"errors\":[\x7b\"detail\":\"error message text\"\x7d]\x7d" =
      some ⟨[⟨"error message text"⟩]⟩ :=
  ⟨rfl, by decide, by decide⟩

/-- C8: the publish route applies the fixed 2 MiB body bound before the
pipeline: every request whose body exceeds the bound (with a matching
content-length) is rejected, the handler standing for the publish
pipeline is never invoked — the outcome is identical for every handler
— and the index state is returned unchanged. -/
theorem claim_C8 {σ : Type} (handler : List Nat → σ → Except AnyhowError Unit × σ)
    (req : Request) (state : σ)
    (hlen : req.contentLength = req.body.length)
    (hbig : bodyLimit < req.body.length) :
    (publishRoute handler req state).1 = RouteResult.rejected ∧
    (publishRoute handler req state).2 = state ∧
    (∀ handler2 : List Nat → σ → Except AnyhowError Unit × σ,
      publishRoute handler2 req state = publishRoute handler req state) := by
  have hc : ¬ req.contentLength ≤ bodyLimit := by
    rw [hlen]
    omega
  refine ⟨?_, ?_, ?_⟩
  · unfold publishRoute
    split_ifs <;> simp_all
  · unfold publishRoute
    split_ifs <;> simp_all
  · intro handler2
    unfold publishRoute
    split_ifs <;> simp_all

theorem claim_C8_witness :
    (publishRoute (fun _ s => (Except.ok (), s + 1))
      ⟨"PUT", ["api", "v1", "crates", "new"], 2097153, List.replicate 2097153 0⟩ 0).1 =
      RouteResult.rejected ∧
    (publishRoute (fun _ s => (Except.ok (), s + 1))
      ⟨"PUT", ["api", "v1", "crates", "new"], 2097153, List.replicate 2097153 0⟩ 0).2 = 0 :=
  ⟨(claim_C8 (fun _ s => (Except.ok (), s + 1))
      ⟨"PUT", ["api", "v1", "crates", "new"], 2097153, List.replicate 2097153 0⟩ 0
      (List.length_replicate 2097153 0).symm
      (by rw [List.length_replicate] ; decide)).1,
    (claim_C8 (fun _ s => (Except.ok (), s + 1))
      ⟨"PUT", ["api", "v1", "crates", "new"], 2097153, List.replicate 2097153 0⟩ 0
      (List.length_replicate 2097153 0).symm
      (by rw [List.length_replicate] ; decide)).2.1⟩

/-- C9: startup failures are fatal and reported: a bind failure after
fallback or an index construction failure makes the run fail, every
failed run makes the process report the error on standard error and
exit with the nonzero status 1, and every run that completes without
such a failure exits with status 0. -/
theorem claim_C9 {ι : Type} (bind : SocketAddr → Except String SocketAddr)
    (indexNew : SocketAddr → Except String ι)
    (tryReadPort : Except Unit Nat) (argsAddr : SocketAddr) :
    (∀ e, (bindLoop bind (resolveAddr tryReadPort argsAddr) argsAddr.port).1 =
        Except.error e →
      runServer bind indexNew tryReadPort argsAddr = Except.error e) ∧
    (∀ a e, (bindLoop bind (resolveAddr tryReadPort argsAddr) argsAddr.port).1 =
        Except.ok a → indexNew a = Except.error e →
      runServer bind indexNew tryReadPort argsAddr = Except.error e) ∧
    (∀ e, runServer bind indexNew tryReadPort argsAddr = Except.error e →
      mainModel (runServer bind indexNew tryReadPort argsAddr) = (1, [e]) ∧ (1 : Nat) ≠ 0) ∧
    (∀ s, runServer bind indexNew tryReadPort argsAddr = Except.ok s →
      mainModel (runServer bind indexNew tryReadPort argsAddr) = (0, [])) := by
  refine ⟨?_, ?_, ?_, ?_⟩
  · intro e h
    unfold runServer
    dsimp only
    rw [h]
  · intro a e hb hi
    unfold runServer
    dsimp only
    rw [hb]
    dsimp only
    rw [hi]
  · intro e h
    rw [h]
    exact ⟨rfl, by decide⟩
  · intro s h
    rw [h]
    rfl

theorem claim_C9_witness :
    runServer (fun a => Except.ok a) (fun _ => (Except.error "init failed" : Except String Nat))
      (Except.error ()) ⟨"127.0.0.1", 0⟩ = Except.error "init failed" ∧
    mainModel (runServer (fun a => Except.ok a)
      (fun _ => (Except.error "init failed" : Except String Nat))
      (Except.error ()) ⟨"127.0.0.1", 0⟩) = (1, ["init failed"]) ∧
    mainModel (runServer (fun a => Except.ok a) (fun _ => (Except.ok 7 : Except String Nat))
      (Except.error ()) ⟨"127.0.0.1", 0⟩) = (0, []) := by
  have hb : (bindLoop (fun a => Except.ok a)
      (resolveAddr (Except.error ()) ⟨"127.0.0.1", 0⟩)
      (SocketAddr.port ⟨"127.0.0.1", 0⟩)).1 = Except.ok ⟨"127.0.0.1", 0⟩ := by
    rw [show resolveAddr (Except.error ()) (⟨"127.0.0.1", 0⟩ : SocketAddr) =
      (⟨"127.0.0.1", 0⟩ : SocketAddr) from rfl]
    rw [bindLoop_ok (fun a => Except.ok a) ⟨"127.0.0.1", 0⟩
      (SocketAddr.port ⟨"127.0.0.1", 0⟩) ⟨"127.0.0.1", 0⟩ rfl]
  have h1 := (claim_C9 (fun a => Except.ok a)
    (fun _ => (Except.error "init failed" : Except String Nat))
    (Except.error ()) ⟨"127.0.0.1", 0⟩).2.1 ⟨"127.0.0.1", 0⟩ "init failed" hb rfl
  have h2 := (claim_C9 (fun a => Except.ok a)
    (fun _ => (Except.error "init failed" : Except String Nat))
    (Except.error ()) ⟨"127.0.0.1", 0⟩).2.2.1 "init failed" h1
  have h3 := (claim_C9 (fun a => Except.ok a) (fun _ => (Except.ok 7 : Except String Nat))
    (Except.error ()) ⟨"127.0.0.1", 0⟩).2.2.2
    ⟨[SrvEvent.bound ⟨"127.0.0.1", 0⟩, SrvEvent.indexCreated ⟨"127.0.0.1", 0⟩,
      SrvEvent.handleSet, SrvEvent.serving], some 7⟩
    (by
      rw [runServer]
      rw [show resolveAddr (Except.error ()) (⟨"127.0.0.1", 0⟩ : SocketAddr) =
        (⟨"127.0.0.1", 0⟩ : SocketAddr) from rfl]
      rw [bindLoop_ok (fun a => Except.ok a) ⟨"127.0.0.1", 0⟩
        (SocketAddr.port ⟨"127.0.0.1", 0⟩) ⟨"127.0.0.1", 0⟩ rfl]
      rfl)
  exact ⟨h1, h2.1, h3⟩

/-- C10: the bind-retry loop always terminates after at most two bind
attempts; a failed first attempt on a port differing from the original
triggers exactly one retry with the port reset to the originally
requested port and the loop's outcome is that of the reset attempt; and
a failure on a port equal to the original immediately returns the bind
error after the single attempt. -/
theorem claim_C10 (bind : SocketAddr → Except String SocketAddr) (addr : SocketAddr)
    (orig : Nat) :
    (bindLoop bind addr orig).2.length ≤ 2 ∧
    (∀ e, bind addr = Except.error e → addr.port ≠ orig →
      (bindLoop bind addr orig).2 = [addr, addr.setPort orig] ∧
      (bindLoop bind addr orig).1 = (bindLoop bind (addr.setPort orig) orig).1) ∧
    (∀ e, bind addr = Except.error e → addr.port = orig →
      bindLoop bind addr orig = (Except.error e, [addr])) := by
  refine ⟨bindLoop_attempts_le_two bind addr orig, ?_, ?_⟩
  · intro e h hp
    rw [bindLoop_err_retry bind addr orig e h hp]
    exact ⟨by rw [bindLoop_same_attempts bind (addr.setPort orig) orig (setPort_port addr orig)],
      rfl⟩
  · intro e h hp
    exact bindLoop_err_same bind addr orig e h hp

theorem claim_C10_witness :
    (bindLoop (fun _ => (Except.error "x" : Except String SocketAddr)) ⟨"h", 5⟩ 0).2.length ≤ 2 ∧
    (bindLoop (fun _ => (Except.error "x" : Except String SocketAddr)) ⟨"h", 5⟩ 0).2 =
      [⟨"h", 5⟩, SocketAddr.setPort ⟨"h", 5⟩ 0] ∧
    bindLoop (fun _ => (Except.error "x" : Except String SocketAddr)) ⟨"h", 0⟩ 0 =
      (Except.error "x", [⟨"h", 0⟩]) :=
  ⟨(claim_C10 (fun _ => (Except.error "x" : Except String SocketAddr)) ⟨"h", 5⟩ 0).1,
    ((claim_C10 (fun _ => (Except.error "x" : Except String SocketAddr)) ⟨"h", 5⟩ 0).2.1
      "x" rfl (by decide)).1,
    (claim_C10 (fun _ => (Except.error "x" : Except String SocketAddr)) ⟨"h", 0⟩ 0).2.2
      "x" rfl rfl⟩
